import Mathlib

/-!
Verification of the HTTP middleware and integration-test-harness slice of the
iota-sdk repository (Go), via a shallow embedding in Lean.

Embedded source files:
* `pkg/middleware` (the unnamed middleware file): `statusResponseWriter`
  (status capture, `Flush`, `Hijack`), `shouldLogBody`, `getRequestID`, and the
  request/response body-logging phases of `WithLogger`.
* `pkg/itf/suite.go`: the test-harness context pipeline (`setupMiddleware`) and
  the request-builder body encodings (`JSON` / `Form` / `MultipartData`).
* `pkg/fp/reduce.go`: `Reduce`.

External library behaviour (Go standard library and third-party packages such
as `encoding/json`, `encoding/xml`, `net/url`, `net/http`, otel, uuid) is not
repository code; where the middleware calls into it, the embedding either
models the documented behaviour explicitly (noted at each definition) or
abstracts it as a function parameter (e.g. JSON validity), so that the theorems
quantify over every possible behaviour of the external call.
-/

namespace IotaSdk

/-! ## String helpers: Go `strings.Contains` and `strings.ToLower` -/

/-- Does the character list `p` occur as a prefix of `s`? (Go
`strings.HasPrefix` on rune lists; used only to define substring search.) -/
def listStartsWith : List Char → List Char → Bool
  | _, [] => true
  | [], _ :: _ => false
  | a :: as, b :: bs => a = b && listStartsWith as bs

/-- Does `p` occur as a contiguous substring of `s`? (Go `strings.Contains`
on rune lists.) -/
def listContains : List Char → List Char → Bool
  | [], p => p.isEmpty
  | s@(_ :: rest), p => listStartsWith s p || listContains rest p

/-- Go `strings.Contains s pat`. -/
def strContains (s pat : String) : Bool :=
  listContains s.toList pat.toList

/-- Go `strings.ToLower` (modelled per-character with `Char.toLower`; all
content-type strings involved are ASCII, where the two agree). -/
def strToLower (s : String) : String :=
  String.mk (s.toList.map Char.toLower)

/-! ## `statusResponseWriter` (middleware file, lines 47-80) -/

/-- State of a `statusResponseWriter`: the cached `statusCode` field
(`0` = never set) together with the sequence of status codes forwarded to the
underlying `ResponseWriter.WriteHeader`, in call order. -/
structure statusResponseWriter where
  statusCode : Nat
  forwarded : List Nat
  deriving Repr, DecidableEq

/-- `wrapResponseWriter`: fresh wrapper, `statusCode: 0`, nothing forwarded. -/
def wrapResponseWriter : statusResponseWriter :=
  { statusCode := 0, forwarded := [] }

/-- `func (w *statusResponseWriter) WriteHeader(code int)`: cache the code and
forward it to the underlying writer. -/
def statusResponseWriter.WriteHeader (w : statusResponseWriter) (code : Nat) :
    statusResponseWriter :=
  { statusCode := code, forwarded := w.forwarded ++ [code] }

/-- `func (w *statusResponseWriter) Status() int`. -/
def statusResponseWriter.Status (w : statusResponseWriter) : Nat :=
  if w.statusCode = 0 then 200 else w.statusCode

/-- Run a sequence of `WriteHeader` calls against a freshly wrapped writer. -/
def runWriteHeaders (calls : List Nat) : statusResponseWriter :=
  calls.foldl statusResponseWriter.WriteHeader wrapResponseWriter

/-! ## `Flush` / `Hijack` capability passthrough (middleware file, lines 65-76) -/

/-- The underlying `http.ResponseWriter` as seen through the two optional
capability interfaces the wrapper type-asserts (`http.Flusher`,
`http.Hijacker`), plus an observable count of flushes actually forwarded. -/
structure underlyingWriter where
  isFlusher : Bool
  isHijacker : Bool
  flushCount : Nat
  deriving Repr, DecidableEq

/-- Result triple of `Hijack() (net.Conn, *bufio.ReadWriter, error)`; the
connection and read-writer are abstract (their contents are supplied by the
underlying hijacker and never inspected by the wrapper). -/
structure hijackResult where
  conn : Option Unit
  rw : Option Unit
  err : Option String
  deriving Repr, DecidableEq

/-- `func (w *statusResponseWriter) Flush()`: forward only when the underlying
writer implements `http.Flusher`; otherwise fall through (no effect). -/
def statusResponseWriter.Flush (u : underlyingWriter) : underlyingWriter :=
  if u.isFlusher then { u with flushCount := u.flushCount + 1 } else u

/-- `func (w *statusResponseWriter) Hijack()`: forward when the underlying
writer implements `http.Hijacker` (the forwarded result is abstracted as a
successful triple); otherwise return `nil, nil, fmt.Errorf(...)`. -/
def statusResponseWriter.Hijack (u : underlyingWriter) : hijackResult :=
  if u.isHijacker then { conn := some (), rw := some (), err := none }
  else
    { conn := none, rw := none,
      err := some "underlying ResponseWriter does not implement http.Hijacker" }

/-! ## Requests, response sinks and headers for the `WithLogger` embedding -/

/-- A header map. Go's `http.Header` is a multimap; the middleware only ever
uses `Get` (first value) and `Set` (replace), which this association-list model
supports exactly. Keys are used in their canonical form. -/
abbrev Headers := List (String × String)

/-- `Header.Get`: first value for the key, `""` when absent (Go returns the
empty string for a missing key). -/
def headerGet (hs : Headers) (k : String) : String :=
  match hs.find? (fun p => p.1 == k) with
  | some p => p.2
  | none => ""

/-- `Header.Get` distinguishing absence from an empty value (used to state
that a response header was never set at all). -/
def headerLookup (hs : Headers) (k : String) : Option String :=
  (hs.find? (fun p => p.1 == k)).map Prod.snd

/-- `Header.Set`: replace every value of the key with the single given one. -/
def headerSet (hs : Headers) (k v : String) : Headers :=
  (k, v) :: hs.filter (fun p => p.1 != k)

/-- The inbound `*http.Request` as the middleware observes it: method, header
map, body stream (`none` = nil `Body`; `some s` = a stream whose remaining
readable content is `s`), whether reading the stream fails partway
(`io.Copy` error), and the `Form` field populated by `ParseForm`. -/
structure HRequest where
  method : String
  headers : Headers
  body : Option String
  bodyReadErr : Bool
  form : List (String × String)
  deriving DecidableEq

/-- The outbound `http.ResponseWriter` as the middleware mutates it before the
handler runs: response header map, status committed by the first `WriteHeader`
(`none` = not yet written; later `WriteHeader` calls are ignored by the Go
server), and the bytes written so far. -/
structure Sink where
  headers : Headers
  status : Option Nat
  body : String
  deriving DecidableEq

/-- A response writer on which nothing has been written yet. -/
def Sink.fresh : Sink := { headers := [], status := none, body := "" }

/-- Go `http.Error(w, msg, code)`: sets `Content-Type` and
`X-Content-Type-Options`, commits the status (first `WriteHeader` wins), and
writes `msg` followed by a newline (`fmt.Fprintln`). -/
def httpError (w : Sink) (msg : String) (code : Nat) : Sink :=
  { headers :=
      headerSet (headerSet w.headers "Content-Type" "text/plain; charset=utf-8")
        "X-Content-Type-Options" "nosniff",
    status := some (w.status.getD code),
    body := w.body ++ msg ++ "\n" }

/-! ## `WithLogger` request phase (middleware file, lines 149-250) -/

/-- `LoggerOptions` (middleware file, lines 29-33). -/
structure LoggerOptions where
  logRequestBody : Bool
  logResponseBody : Bool
  maxBodyLength : Nat

/-- `DefaultLoggerOptions()`. -/
def DefaultLoggerOptions : LoggerOptions :=
  { logRequestBody := true, logResponseBody := true, maxBodyLength := 512 }

/-- `shouldLogBody` (middleware file, lines 141-147): case-insensitive
substring match of the Content-Type against the four allow-list strings. -/
def shouldLogBody (contentType : String) : Bool :=
  let contentType := strToLower contentType
  strContains contentType "application/json" ||
    strContains contentType "application/x-www-form-urlencoded" ||
    strContains contentType "application/xml" ||
    strContains contentType "text/xml"

/-- The environment of one `WithLogger` invocation: the configuration's
request-id header name, the behaviour of the external parsers
(`json.Unmarshal` success, `xml.Unmarshal` success, `url.ParseQuery` as used
by `ParseForm`), the value `uuid.New().String()` would produce for this
request, and the span context (trace-id, span-id) when the started span
carries a valid trace id. -/
structure MWEnv where
  requestIDHeader : String
  jsonValid : String → Bool
  xmlValid : String → Bool
  formParse : String → Option (List (String × String))
  freshUUID : String
  spanCtx : Option (String × String)

/-- `getRequestID` (middleware file, lines 89-94): the configured header when
non-empty, otherwise a fresh UUID. -/
def getRequestID (p : MWEnv) (r : HRequest) : String :=
  if (headerGet r.headers p.requestIDHeader).length > 0 then
    headerGet r.headers p.requestIDHeader
  else p.freshUUID

/-- Model of `net/http (*Request).ParseForm` for a request whose Content-Type
resolves to `application/x-www-form-urlencoded` (the only situation in which
the middleware calls it): for POST/PUT/PATCH it reads the body stream to EOF
(consuming it) and parses the bytes with `url.ParseQuery`; on success `Form`
is populated and the stream is left drained; on parse failure an error is
returned.  For other methods the body is not read. -/
def goParseForm (formParse : String → Option (List (String × String)))
    (r : HRequest) : Option HRequest :=
  if r.method == "POST" || r.method == "PUT" || r.method == "PATCH" then
    match r.body with
    | some content =>
      match formParse content with
      | some kvs => some { r with body := some "", form := kvs }
      | none => none
    | none => none
  else some r

/-- Outcome of the request phase of `WithLogger`: either the middleware
returned early after writing an error response (`abort`, the downstream
handler is never invoked), or it reached `next.ServeHTTP(wrappedWriter,
r.WithContext(ctx))` with the given response writer and request (`proceed`). -/
inductive Phase1Result where
  | abort (w : Sink)
  | proceed (w : Sink) (r : HRequest)
  deriving DecidableEq

/-- The request passed downstream, when the handler was invoked. -/
def Phase1Result.handlerReq : Phase1Result → Option HRequest
  | .abort _ => none
  | .proceed _ r => some r

/-- The body stream of the request passed downstream. -/
def Phase1Result.handlerBody : Phase1Result → Option (Option String)
  | .abort _ => none
  | .proceed _ r => some r.body

/-- Was the chain aborted before the handler? -/
def Phase1Result.isAbort : Phase1Result → Bool
  | .abort _ => true
  | .proceed _ _ => false

/-- The response writer state when the phase ends. -/
def Phase1Result.sink : Phase1Result → Sink
  | .abort w => w
  | .proceed w _ => w

/-- The tail of the request phase (middleware file, lines 211-250), reached on
every path that does not return early: `propagator.Inject` writes the W3C
`Traceparent` header into the response when the span context is valid (its
exact format abstracted as `traceID-spanID`), the `X-Trace-Id` / `X-Span-Id`
headers are set from the span context, `X-Request-Id` is set to the resolved
request id, and `next.ServeHTTP` is invoked. -/
def finishSink (p : MWEnv) (requestID : String) (w : Sink) : Sink :=
  let w :=
    match p.spanCtx with
    | some ts =>
      let hs := headerSet w.headers "Traceparent" (ts.1 ++ "-" ++ ts.2)
      let hs := headerSet hs "X-Trace-Id" ts.1
      let hs := headerSet hs "X-Span-Id" ts.2
      { w with headers := hs }
    | none => w
  { w with headers := headerSet w.headers "X-Request-Id" requestID }

/-- The tail of the request phase packaged as a `Phase1Result`: the handler is
invoked with the header-enriched writer and the (possibly body-restored)
request. -/
def finishPhase1 (p : MWEnv) (requestID : String) (r : HRequest) (w : Sink) :
    Phase1Result :=
  Phase1Result.proceed (finishSink p requestID w) r

/-- The request phase of the handler returned by `WithLogger` (middleware
file, lines 153-250): resolve the request id, decide body logging via the
allow-list, read the body into a buffer (500 on read failure), restore an
equivalent stream onto the request, dispatch on the raw Content-Type
(case-sensitive `strings.Contains`) to the JSON / form-urlencoded / XML / raw
branch (400 on parse failure), then fall through to `finishPhase1`. -/
def bodyLogPhase (opts : LoggerOptions) (p : MWEnv) (r : HRequest)
    (w : Sink) : Sink ⊕ HRequest :=
  let reqContentType := headerGet r.headers "Content-Type"
  if opts.logRequestBody && shouldLogBody reqContentType then
    match r.body with
    | some content =>
      if r.bodyReadErr then
        Sum.inl (httpError w "failed to read request-body" 500)
      else
        -- r.Body = io.NopCloser(bytes.NewBuffer(bodyBuf.Bytes())): the drained
        -- stream is replaced by a fresh one over the buffered bytes.
        let r2 := { r with body := some content }
        if strContains reqContentType "application/json" then
          if p.jsonValid content then Sum.inr r2
          else Sum.inl (httpError w "failed to parse JSON request-body" 400)
        else if strContains reqContentType "application/x-www-form-urlencoded" then
          match goParseForm p.formParse r2 with
          | some r3 => Sum.inr r3
          | none =>
            Sum.inl (httpError w "failed to parse form-urlencoded request-body" 400)
        else if strContains reqContentType "application/xml" ||
            strContains reqContentType "text/xml" then
          if p.xmlValid content then Sum.inr r2
          else Sum.inl (httpError w "failed to parse XML request-body" 400)
        else Sum.inr r2
    | none => Sum.inr r
  else Sum.inr r

/-- The request phase of the handler returned by `WithLogger`, assembled:
an early `return` yields `abort` with the error response; otherwise the
header-setting tail runs and the handler is invoked. -/
def withLoggerPhase1 (opts : LoggerOptions) (p : MWEnv) (r : HRequest)
    (w : Sink) : Phase1Result :=
  let requestID := getRequestID p r
  match bodyLogPhase opts p r w with
  | Sum.inl werr => Phase1Result.abort werr
  | Sum.inr r2 => finishPhase1 p requestID r2 w

/-! ## `WithLogger` response phase (middleware file, lines 268-302) -/

/-- The wrapped response writer as the response-logging phase observes it
after the handler has returned: the committed status, headers and written
bytes (what the client sees), whether the underlying writer implements
`http.Flusher`, the optional `io.Reader` view of the underlying writer
(`none` = the type assertion fails; `some s` = a reader whose remaining
content is `s`, consumed by reading), whether reading it fails, and the count
of flushes forwarded. -/
structure RSink where
  status : Option Nat
  headers : Headers
  written : String
  canFlush : Bool
  readable : Option String
  readErr : Bool
  flushes : Nat
  deriving DecidableEq

/-- `wrappedWriter.Flush()` on the response phase's sink: forwarded only when
the underlying writer implements `http.Flusher`; never touches status,
headers or written bytes. -/
def RSink.flush (w : RSink) : RSink :=
  if w.canFlush then { w with flushes := w.flushes + 1 } else w

/-- The response-body logging phase of `WithLogger` (middleware file, lines
268-302): when enabled and the response Content-Type is allow-listed, flush,
type-assert the underlying writer to `io.Reader`, read it into a buffer, and
dispatch on the raw Content-Type to the JSON / XML / raw branch.  Every exit
is a `return` after emitting log events; the returned list records the final
log message of the path taken. -/
def respLogPhase (opts : LoggerOptions) (jsonValid xmlValid : String → Bool)
    (w : RSink) : RSink × List String :=
  let respContentType := headerGet w.headers "Content-Type"
  if opts.logResponseBody && shouldLogBody respContentType then
    let w := w.flush
    match w.readable with
    | some content =>
      if w.readErr then (w, ["failed to read response-body"])
      else
        -- io.Copy(bodyBuf, reader) drains the reader into the buffer.
        let w := { w with readable := some "" }
        if strContains respContentType "application/json" then
          if jsonValid content then (w, ["JSON response-body parsed"])
          else (w, ["failed to parse JSON response-body"])
        else if strContains respContentType "application/xml" ||
            strContains respContentType "text/xml" then
          if xmlValid content then (w, ["XML response-body parsed"])
          else (w, ["failed to parse XML response-body"])
        else (w, ["response-body parsed"])
    | none => (w, ["underlying ResponseWriter does not implement io.Reader"])
  else (w, [])

/-! ## Test harness: `Suite.setupMiddleware` (pkg/itf/suite.go, lines 125-185) -/

/-- A request-scoped context: `context.WithValue` layering modelled as an
association list with the most recent layer first. -/
abbrev Ctx := List (String × String)

/-- `context.WithValue`: a new layer shadowing any older binding of the key. -/
def ctxSet (c : Ctx) (k v : String) : Ctx := (k, v) :: c

/-- `ctx.Value(k)`: the most recent binding. -/
def ctxGet (c : Ctx) (k : String) : Option String :=
  (c.find? (fun p => p.1 == k)).map Prod.snd

/-- The per-suite environment (`TestEnvironment`): the values the standard
attachments read.  Attached values are represented by strings. -/
structure TestEnv where
  envUser : Option String
  pool : String
  tenantID : String
  app : String

/-- The suite state consulted by the inner handler of `setupMiddleware`:
environment, the `AsUser` override, and the registered hook / middleware
lists (pkg/itf/suite.go, lines 39-47).  Hooks and middlewares transform the
context; the request argument of a `MiddlewareFunc` is not modelled (none of
the claims depend on it). -/
structure SuiteModel where
  env : TestEnv
  user : Option String
  middlewares : List (Ctx → Ctx)
  beforeEach : List (Ctx → Ctx)

/-- Apply an ordered list of context transformers, first registered first. -/
def applyFns (fns : List (Ctx → Ctx)) (c : Ctx) : Ctx :=
  fns.foldl (fun c f => f c) c

/-- The standard context attachments of `setupMiddleware` (pkg/itf/suite.go,
lines 138-175), in source order: resolved user (when non-nil), pool, session,
tenant id, app, head, logo, bound logger, params (fixed IP `127.0.0.1` and
user-agent `test-agent`), page context. -/
def standardAttach (s : SuiteModel) (c : Ctx) : Ctx :=
  let currentUser :=
    match s.user with
    | some u => some u
    | none => s.env.envUser
  let c :=
    match currentUser with
    | some u => ctxSet c "user" u
    | none => c
  let c := ctxSet c "pool" s.env.pool
  let c := ctxSet c "session" "session"
  let c := ctxSet c "tenantID" s.env.tenantID
  let c := ctxSet c "app" s.env.app
  let c := ctxSet c "head" "NopComponent"
  let c := ctxSet c "logo" "NopComponent"
  let c := ctxSet c "logger" "fieldsLogger"
  let c := ctxSet c "params" "ip=127.0.0.1;ua=test-agent"
  ctxSet c "pageCtx" "locale=en"

/-- The context pipeline of the handler installed by `setupMiddleware`
(pkg/itf/suite.go, lines 129-182): the `BeforeEach` hooks run first (lines
134-136), then the standard attachments (lines 138-175), then the custom
middleware functions (lines 178-180), each in registration order. -/
def setupMiddlewareCtx (s : SuiteModel) (c : Ctx) : Ctx :=
  let c := applyFns s.beforeEach c
  let c := standardAttach s c
  applyFns s.middlewares c

/-! ## Test harness: request-builder body encodings (pkg/itf/suite.go,
lines 187-294) -/

/-- The builder state the body-encoding methods touch: accumulated body bytes
and header map (method and path are never modified by them). -/
structure ReqBuilder where
  method : String
  path : String
  headers : Headers
  body : Option String
  deriving DecidableEq

/-- One body-encoding call.  The bytes each call assigns are carried in the
constructor: for `JSON` the `json.Marshal` output, for `Form` the
`url.Values.Encode` output, for `MultipartData` the multipart-encoded payload
together with the `writer.FormDataContentType()` string (which embeds the
random boundary); the encoders themselves are external library code. -/
inductive BodyOp where
  | json (marshalled : String)
  | form (encoded : String)
  | multipart (encoded : String) (contentType : String)
  deriving DecidableEq

/-- The body bytes a body-encoding call assigns. -/
def BodyOp.bodyBytes : BodyOp → String
  | .json d => d
  | .form d => d
  | .multipart d _ => d

/-- The Content-Type a body-encoding call sets. -/
def BodyOp.contentType : BodyOp → String
  | .json _ => "application/json"
  | .form _ => "application/x-www-form-urlencoded"
  | .multipart _ ct => ct

/-- `Request.JSON` / `Request.Form` / `Request.MultipartData`
(pkg/itf/suite.go, lines 195-209 and 260-294): each overwrites `r.body` with
the freshly encoded bytes and `Set`s the Content-Type header. -/
def applyBodyOp (r : ReqBuilder) (op : BodyOp) : ReqBuilder :=
  { r with body := some op.bodyBytes,
           headers := headerSet r.headers "Content-Type" op.contentType }

/-- A sequence of body-encoding calls on a builder, in call order. -/
def applyBodyOps (r : ReqBuilder) (ops : List BodyOp) : ReqBuilder :=
  ops.foldl applyBodyOp r

/-! ## `fp.Reduce` (pkg/fp/reduce.go, lines 4-13) -/

/-- The closure value returned by `Reduce(callback, acc)`.  Go closures
capture variables by reference: the returned function's `acc = callback(acc,
x)` assignments mutate the captured `acc`, so the closure carries that
variable as state across invocations. -/
structure ReduceClosure (T R : Type) where
  callback : R → T → R
  acc : R

/-- `fp.Reduce`: build the closure with the caller's initial accumulator. -/
def Reduce {T R : Type} (callback : R → T → R) (acc : R) : ReduceClosure T R :=
  { callback := callback, acc := acc }

/-- One invocation of the returned closure on a slice: the loop folds
`callback` over the slice starting from the captured `acc`, writing each
result back into `acc`; the call returns the final value and leaves the
mutated `acc` behind for the next invocation. -/
def ReduceClosure.call {T R : Type} (c : ReduceClosure T R) (xs : List T) :
    R × ReduceClosure T R :=
  let r := xs.foldl c.callback c.acc
  (r, { c with acc := r })

/-! ## Concrete instances for witnesses and counterexamples

The external parsers are parameters of the embedding; the instances below are
concrete stand-ins used only at specific inputs, on which they agree with the
Go library functions (`json.Unmarshal` rejects `not-json` and accepts `{}`;
`url.ParseQuery "a=1"` yields `a ↦ 1`). -/

/-- Split a character list at every occurrence of a separator. -/
def splitOnChar (sep : Char) : List Char → List (List Char)
  | [] => [[]]
  | c :: rest =>
    let r := splitOnChar sep rest
    if c = sep then [] :: r
    else
      match r with
      | [] => [[c]]
      | g :: gs => (c :: g) :: gs

/-- A stand-in for `url.ParseQuery` adequate for bodies without percent
escapes: split on `&`, then each pair at its first `=`. -/
def demoFormParse (s : String) : Option (List (String × String)) :=
  some ((splitOnChar '&' s.toList).map (fun kv =>
    let k := kv.takeWhile (fun c => c ≠ '=')
    let v := (kv.drop (k.length + 1))
    (String.mk k, String.mk v)))

/-- A stand-in for `json.Unmarshal` success, agreeing with Go on the inputs
used here: objects and arrays are valid, bare words such as `not-json` are
not. -/
def demoJsonValid (s : String) : Bool :=
  strContains s "\x7b" || strContains s "["

/-- A stand-in for `xml.Unmarshal` success. -/
def demoXmlValid (s : String) : Bool :=
  strContains s "<"

/-- A concrete middleware environment: the default request-id header name, the
demo parsers, a fixed value for this request's `uuid.New().String()`, and no
recording span. -/
def demoEnv : MWEnv :=
  { requestIDHeader := "X-Request-Id",
    jsonValid := demoJsonValid,
    xmlValid := demoXmlValid,
    formParse := demoFormParse,
    freshUUID := "3f1d6a2e-8f43-4bd2-9c0f-5f8a54f2a9d1",
    spanCtx := none }

/-- A POST with lowercase JSON Content-Type and a body that is not JSON. -/
def reqBadJson : HRequest :=
  { method := "POST",
    headers := [("Content-Type", "application/json")],
    body := some "not-json",
    bodyReadErr := false,
    form := [] }

/-- The same request with the Content-Type spelled in upper case. -/
def reqUpperBadJson : HRequest :=
  { reqBadJson with headers := [("Content-Type", "APPLICATION/JSON")] }

/-- A POST with a valid JSON body. -/
def reqGoodJson : HRequest :=
  { reqBadJson with body := some "\x7b\"a\":1\x7d" }

/-- A POST with a form-urlencoded body `a=1`. -/
def reqForm : HRequest :=
  { method := "POST",
    headers := [("Content-Type", "application/x-www-form-urlencoded")],
    body := some "a=1",
    bodyReadErr := false,
    form := [] }

/-! ## Case-insensitivity lemmas for `shouldLogBody` -/

theorem listStartsWith_map (f : Char → Char) :
    ∀ s p : List Char, listStartsWith s p = true →
      listStartsWith (s.map f) (p.map f) = true := by
  intro s
  induction s with
  | nil =>
    intro p h
    cases p with
    | nil => simp [listStartsWith]
    | cons b bs => simp [listStartsWith] at h
  | cons a as ih =>
    intro p h
    cases p with
    | nil => simp [listStartsWith]
    | cons b bs =>
      simp only [listStartsWith, List.map_cons, Bool.and_eq_true,
        decide_eq_true_eq] at h ⊢
      exact ⟨by rw [h.1], ih bs h.2⟩

theorem listContains_map (f : Char → Char) :
    ∀ s p : List Char, listContains s p = true →
      listContains (s.map f) (p.map f) = true := by
  intro s
  induction s with
  | nil =>
    intro p h
    simp only [listContains] at h
    have : p = [] := by
      cases p with
      | nil => rfl
      | cons b bs => simp [List.isEmpty] at h
    subst this
    simp [listContains]
  | cons a as ih =>
    intro p h
    simp only [listContains, List.map_cons, Bool.or_eq_true] at h ⊢
    cases h with
    | inl h =>
      exact Or.inl (listStartsWith_map f (a :: as) p h)
    | inr h => exact Or.inr (ih p h)

/-- Lowercasing the subject preserves containment of an already-lowercase
pattern. -/
theorem strContains_strToLower (ct pat : String)
    (hl : pat.toList.map Char.toLower = pat.toList)
    (h : strContains ct pat = true) :
    strContains (strToLower ct) pat = true := by
  have hm := listContains_map Char.toLower ct.toList pat.toList h
  rw [hl] at hm
  exact hm

/-- A Content-Type containing `application/json` verbatim passes the
case-insensitive allow-list. -/
theorem shouldLogBody_of_json (ct : String)
    (h : strContains ct "application/json" = true) :
    shouldLogBody ct = true := by
  unfold shouldLogBody
  have := strContains_strToLower ct "application/json" (by decide) h
  simp [this]

/-- Likewise for `application/x-www-form-urlencoded`. -/
theorem shouldLogBody_of_form (ct : String)
    (h : strContains ct "application/x-www-form-urlencoded" = true) :
    shouldLogBody ct = true := by
  unfold shouldLogBody
  have := strContains_strToLower ct "application/x-www-form-urlencoded"
    (by decide) h
  simp [this]

/-- Likewise for `application/xml`. -/
theorem shouldLogBody_of_xml (ct : String)
    (h : strContains ct "application/xml" = true) :
    shouldLogBody ct = true := by
  unfold shouldLogBody
  have := strContains_strToLower ct "application/xml" (by decide) h
  simp [this]

/-! ## Claim theorems -/

/-- C1: For every request whose Content-Type contains `application/json` and
whose body is read but is not valid JSON, the `WithLogger` middleware (with
request-body logging enabled) aborts the chain — the downstream handler is
never invoked (`Phase1Result.abort`) — and the response written onto a fresh
writer has status exactly 400 and body exactly
`"failed to parse JSON request-body\n"`. -/
theorem c1_json_parse_failure_aborts_400 (opts : LoggerOptions) (p : MWEnv)
    (r : HRequest) (b : String)
    (hlog : opts.logRequestBody = true)
    (hct : strContains (headerGet r.headers "Content-Type") "application/json"
      = true)
    (hb : r.body = some b)
    (herr : r.bodyReadErr = false)
    (hjson : p.jsonValid b = false) :
    withLoggerPhase1 opts p r Sink.fresh =
      Phase1Result.abort
        (httpError Sink.fresh "failed to parse JSON request-body" 400) ∧
    (httpError Sink.fresh "failed to parse JSON request-body" 400).status =
      some 400 ∧
    (httpError Sink.fresh "failed to parse JSON request-body" 400).body =
      "failed to parse JSON request-body\n" := by
  refine ⟨?_, by decide, by decide⟩
  have hslb := shouldLogBody_of_json _ hct
  simp [withLoggerPhase1, bodyLogPhase, hlog, hslb, hb, herr, hct, hjson]

/-- C1 witness: the statement at the concrete bad-JSON POST of `reqBadJson`
under the demo environment. -/
theorem c1_witness :
    withLoggerPhase1 DefaultLoggerOptions demoEnv reqBadJson Sink.fresh =
      Phase1Result.abort
        (httpError Sink.fresh "failed to parse JSON request-body" 400) ∧
    (httpError Sink.fresh "failed to parse JSON request-body" 400).status =
      some 400 ∧
    (httpError Sink.fresh "failed to parse JSON request-body" 400).body =
      "failed to parse JSON request-body\n" :=
  c1_json_parse_failure_aborts_400 DefaultLoggerOptions demoEnv reqBadJson
    "not-json" rfl (by decide) rfl rfl (by decide)

/-- Every sink produced by the header-setting tail carries `X-Request-Id`
equal to the resolved request id (it is the last header set). -/
theorem headerLookup_finishSink (p : MWEnv) (i : String) (w : Sink) :
    headerLookup (finishSink p i w).headers "X-Request-Id" = some i := by
  unfold finishSink
  cases p.spanCtx <;> simp [headerLookup, headerSet]

/-- C2 (amended): for every request read and parsed successfully by the
body-logging phase through the JSON, XML or raw-text branch — i.e. whose
Content-Type is allow-listed but does not contain
`application/x-www-form-urlencoded` — the downstream handler receives a
request whose body stream holds exactly the original bytes.  (The
form-urlencoded branch is excluded: `ParseForm` consumes the restored
stream.) -/
theorem c2_body_restored_unless_form (opts : LoggerOptions) (p : MWEnv)
    (r : HRequest) (b : String)
    (hlog : opts.logRequestBody = true)
    (hslb : shouldLogBody (headerGet r.headers "Content-Type") = true)
    (hb : r.body = some b)
    (herr : r.bodyReadErr = false)
    (hform : strContains (headerGet r.headers "Content-Type")
      "application/x-www-form-urlencoded" = false)
    (hjson : strContains (headerGet r.headers "Content-Type")
      "application/json" = true → p.jsonValid b = true)
    (hxml : (strContains (headerGet r.headers "Content-Type") "application/xml"
      || strContains (headerGet r.headers "Content-Type") "text/xml") = true →
      p.xmlValid b = true) :
    (withLoggerPhase1 opts p r Sink.fresh).handlerBody = some (some b) := by
  by_cases hj : strContains (headerGet r.headers "Content-Type")
      "application/json" = true
  · have hv := hjson hj
    simp [withLoggerPhase1, bodyLogPhase, finishPhase1, hlog, hslb, hb, herr,
      hj, hv, Phase1Result.handlerBody]
  · by_cases hx : (strContains (headerGet r.headers "Content-Type")
        "application/xml" ||
        strContains (headerGet r.headers "Content-Type") "text/xml") = true
    · have hv := hxml hx
      simp [withLoggerPhase1, bodyLogPhase, finishPhase1, hlog, hslb, hb, herr,
        hform, hj, hx, hv, Phase1Result.handlerBody]
    · simp [withLoggerPhase1, bodyLogPhase, finishPhase1, hlog, hslb, hb, herr,
        hform, hj, hx, Phase1Result.handlerBody]

/-- C2 witness: a valid-JSON POST reaches the handler with the original
bytes as its body stream. -/
theorem c2_witness :
    (withLoggerPhase1 DefaultLoggerOptions demoEnv reqGoodJson
      Sink.fresh).handlerBody = some (some "\x7b\"a\":1\x7d") :=
  c2_body_restored_unless_form DefaultLoggerOptions demoEnv reqGoodJson
    "\x7b\"a\":1\x7d" rfl (by decide) rfl rfl (by decide)
    (fun _ => by decide) (fun h => absurd h (by decide))

/-- C2 counterexample: for the allow-listed Content-Type
`application/x-www-form-urlencoded` (a successful parse: `url.ParseQuery
"a=1"` succeeds), the downstream handler receives a drained body stream
(`""`), not the original bytes `a=1` — `ParseForm` consumed the restored
stream — refuting the claim's "all allow-listed types" scope. -/
theorem c2_counterexample :
    (withLoggerPhase1 DefaultLoggerOptions demoEnv reqForm
      Sink.fresh).handlerBody = some (some "") ∧
    reqForm.body = some "a=1" ∧
    (some (some "") : Option (Option String)) ≠ some (some "a=1") := by
  decide

/-- C3 (amended): for every request without a request-id header, on every
execution on which the middleware reaches the downstream handler, the
response carries `X-Request-Id` equal to the freshly generated UUID.  (On the
early-return paths of the body-logging phase — read failure 500, parse
failure 400 — no `X-Request-Id` header is set at all.) -/
theorem c3_request_id_on_handler_paths (opts : LoggerOptions) (p : MWEnv)
    (r : HRequest) (w' : Sink) (r' : HRequest)
    (hnoid : headerGet r.headers p.requestIDHeader = "")
    (hres : withLoggerPhase1 opts p r Sink.fresh =
      Phase1Result.proceed w' r') :
    headerLookup w'.headers "X-Request-Id" = some p.freshUUID := by
  have hid : getRequestID p r = p.freshUUID := by
    unfold getRequestID
    rw [hnoid]
    simp
  simp only [withLoggerPhase1] at hres
  cases hbp : bodyLogPhase opts p r Sink.fresh with
  | inl w1 =>
    rw [hbp] at hres
    exact absurd hres (by simp)
  | inr r1 =>
    rw [hbp] at hres
    unfold finishPhase1 at hres
    injection hres with hw _
    rw [← hw, hid]
    exact headerLookup_finishSink p p.freshUUID Sink.fresh

/-- C3 witness: a header-less valid-JSON POST reaches the handler and the
response carries the generated UUID. -/
theorem c3_witness :
    headerLookup
      (withLoggerPhase1 DefaultLoggerOptions demoEnv reqGoodJson
        Sink.fresh).sink.headers "X-Request-Id" =
      some "3f1d6a2e-8f43-4bd2-9c0f-5f8a54f2a9d1" :=
  c3_request_id_on_handler_paths DefaultLoggerOptions demoEnv reqGoodJson
    (finishSink demoEnv demoEnv.freshUUID Sink.fresh) reqGoodJson
    (by decide) (by decide)

/-- C3 counterexample: a request with no request-id header whose JSON body
fails to parse is aborted with 400, and the written response has no
`X-Request-Id` header at all (the header is only set after the body-logging
block, whose early `return` skips it) — refuting the claim's "including those
whose body fails to read or parse". -/
theorem c3_counterexample :
    headerGet reqBadJson.headers "X-Request-Id" = "" ∧
    (withLoggerPhase1 DefaultLoggerOptions demoEnv reqBadJson
      Sink.fresh).isAbort = true ∧
    headerLookup
      (withLoggerPhase1 DefaultLoggerOptions demoEnv reqBadJson
        Sink.fresh).sink.headers "X-Request-Id" = none := by
  decide

/-- A before-each hook that attaches its own logger layer (used to observe
where in the pipeline hooks run). -/
def demoHook : Ctx → Ctx := fun c => ctxSet c "logger" "from-hook"

/-- A concrete suite with one before-each hook and no custom middleware. -/
def demoSuite : SuiteModel :=
  { env := { envUser := some "env-user", pool := "pool-1",
             tenantID := "tenant-1", app := "app-1" },
    user := none,
    middlewares := [],
    beforeEach := [demoHook] }

/-- C4 counterexample: in a suite whose single before-each hook attaches a
logger layer, the final context resolves "logger" to the standard
attachment's value, and the hook's layer lies underneath it — the hook ran
*before* the standard attachments, so they shadow it.  Under the claim (hooks
applied after all standard attachments) the hook's binding would be the most
recent one. -/
theorem c4_counterexample :
    ctxGet (setupMiddlewareCtx demoSuite []) "logger" = some "fieldsLogger" ∧
    (some "fieldsLogger" : Option String) ≠ some "from-hook" ∧
    (setupMiddlewareCtx demoSuite []).contains ("logger", "from-hook") = true := by
  decide

/-- C4 (amended): the test-harness request pipeline applies the caller's
before-each hooks first, then the standard context attachments (identity,
pool, session, tenant id, application handle, logger, params with fixed IP
`127.0.0.1` and user-agent `test-agent`, page context), then the custom
middleware functions, each list in registration order; consequently the
standard logger attachment shadows any logger layer a hook set. -/
theorem c4_hooks_run_before_standard_attachments (s : SuiteModel) (c : Ctx) :
    setupMiddlewareCtx s c =
      applyFns s.middlewares (standardAttach s (applyFns s.beforeEach c)) ∧
    ctxGet (setupMiddlewareCtx { s with middlewares := [] } c) "logger" =
      some "fieldsLogger" := by
  constructor
  · rfl
  · cases hu : s.user <;> cases he : s.env.envUser <;>
      simp [setupMiddlewareCtx, standardAttach, applyFns, ctxGet, ctxSet, hu, he]

/-- C5 counterexample: the body `not-json` under Content-Type
`APPLICATION/JSON` passes the case-insensitive allow-list but is dispatched by
the case-sensitive `strings.Contains` switch to the raw-text branch: the
request is *not* aborted and no status is written, whereas the identical body
under `application/json` is aborted with 400 — the two spellings are not
treated identically. -/
theorem c5_counterexample :
    shouldLogBody "APPLICATION/JSON" = true ∧
    demoEnv.jsonValid "not-json" = false ∧
    (withLoggerPhase1 DefaultLoggerOptions demoEnv reqBadJson
      Sink.fresh).isAbort = true ∧
    (withLoggerPhase1 DefaultLoggerOptions demoEnv reqUpperBadJson
      Sink.fresh).isAbort = false ∧
    (withLoggerPhase1 DefaultLoggerOptions demoEnv reqUpperBadJson
      Sink.fresh).sink.status = none := by
  decide

/-- C5 (amended): the decision *whether* to read and log the body is the
case-insensitive substring match of `shouldLogBody`, but the choice of parse
branch is a case-sensitive substring match on the raw Content-Type; an
allow-listed Content-Type that case-sensitively contains none of the four
strings falls to the raw-text branch and the request is never aborted,
whatever the body. -/
theorem c5_branch_dispatch_is_case_sensitive (opts : LoggerOptions)
    (p : MWEnv) (r : HRequest) (b : String)
    (hlog : opts.logRequestBody = true)
    (hslb : shouldLogBody (headerGet r.headers "Content-Type") = true)
    (hb : r.body = some b)
    (herr : r.bodyReadErr = false)
    (hj : strContains (headerGet r.headers "Content-Type")
      "application/json" = false)
    (hf : strContains (headerGet r.headers "Content-Type")
      "application/x-www-form-urlencoded" = false)
    (hx : strContains (headerGet r.headers "Content-Type")
      "application/xml" = false)
    (ht : strContains (headerGet r.headers "Content-Type")
      "text/xml" = false) :
    (withLoggerPhase1 opts p r Sink.fresh).isAbort = false := by
  simp [withLoggerPhase1, bodyLogPhase, finishPhase1, hlog, hslb, hb, herr,
    hj, hf, hx, ht, Phase1Result.isAbort]

/-- C5 witness: the amended statement at the upper-case JSON request. -/
theorem c5_witness :
    (withLoggerPhase1 DefaultLoggerOptions demoEnv reqUpperBadJson
      Sink.fresh).isAbort = false :=
  c5_branch_dispatch_is_case_sensitive DefaultLoggerOptions demoEnv
    reqUpperBadJson "not-json" rfl (by decide) rfl rfl (by decide) (by decide)
    (by decide) (by decide)

theorem foldl_WriteHeader_forwarded (calls : List Nat)
    (w : statusResponseWriter) :
    (calls.foldl statusResponseWriter.WriteHeader w).forwarded =
      w.forwarded ++ calls := by
  induction calls generalizing w with
  | nil => simp
  | cons c cs ih =>
    rw [List.foldl_cons, ih]
    simp [statusResponseWriter.WriteHeader]

theorem foldl_WriteHeader_statusCode (calls : List Nat)
    (w : statusResponseWriter) :
    (calls.foldl statusResponseWriter.WriteHeader w).statusCode =
      calls.getLastD w.statusCode := by
  induction calls generalizing w with
  | nil => rfl
  | cons c cs ih =>
    rw [List.foldl_cons, ih, List.getLastD_cons]
    rfl

/-- C6: for every sequence of `WriteHeader` calls on a freshly wrapped
response writer, every code is forwarded to the underlying writer in order;
`Status()` returns 200 when `WriteHeader` was never called, and the last code
set when it was (for a non-zero last code). -/
theorem c6_status_default_and_last (calls : List Nat) :
    (runWriteHeaders calls).forwarded = calls ∧
    (calls = [] → (runWriteHeaders calls).Status = 200) ∧
    (∀ c, calls.getLast? = some c → c ≠ 0 →
      (runWriteHeaders calls).Status = c) := by
  refine ⟨?_, ?_, ?_⟩
  · simpa [runWriteHeaders, wrapResponseWriter] using
      foldl_WriteHeader_forwarded calls wrapResponseWriter
  · intro h
    subst h
    rfl
  · intro c hc hne
    unfold runWriteHeaders statusResponseWriter.Status
    rw [foldl_WriteHeader_statusCode, List.getLastD_eq_getLast?, hc]
    simp [hne]

/-- C6 witness: no call gives 200; the calls 404 then 201 are both forwarded
and `Status()` is 201. -/
theorem c6_witness :
    (runWriteHeaders []).Status = 200 ∧
    (runWriteHeaders [404, 201]).forwarded = [404, 201] ∧
    (runWriteHeaders [404, 201]).Status = 201 :=
  ⟨(c6_status_default_and_last []).2.1 rfl,
   (c6_status_default_and_last [404, 201]).1,
   (c6_status_default_and_last [404, 201]).2.2 201 (by decide) (by decide)⟩

/-- C7: on an underlying writer implementing neither `http.Flusher` nor
`http.Hijacker`, `Flush()` is a no-op (the writer is returned unchanged; the
operations are total functions, so no panic is modelled or possible) and
`Hijack()` returns nil connection, nil read-writer and a non-nil descriptive
error. -/
theorem c7_flush_noop_hijack_error (u : underlyingWriter)
    (hf : u.isFlusher = false) (hh : u.isHijacker = false) :
    statusResponseWriter.Flush u = u ∧
    (statusResponseWriter.Hijack u).conn = none ∧
    (statusResponseWriter.Hijack u).rw = none ∧
    (statusResponseWriter.Hijack u).err =
      some "underlying ResponseWriter does not implement http.Hijacker" ∧
    (statusResponseWriter.Hijack u).err ≠ none := by
  unfold statusResponseWriter.Flush statusResponseWriter.Hijack
  rw [hf, hh]
  simp

/-- C7 witness: the statement at a capability-less writer. -/
theorem c7_witness :
    statusResponseWriter.Flush
      { isFlusher := false, isHijacker := false, flushCount := 0 } =
      { isFlusher := false, isHijacker := false, flushCount := 0 } ∧
    (statusResponseWriter.Hijack
      { isFlusher := false, isHijacker := false, flushCount := 0 }).conn =
      none ∧
    (statusResponseWriter.Hijack
      { isFlusher := false, isHijacker := false, flushCount := 0 }).rw =
      none ∧
    (statusResponseWriter.Hijack
      { isFlusher := false, isHijacker := false, flushCount := 0 }).err =
      some "underlying ResponseWriter does not implement http.Hijacker" ∧
    (statusResponseWriter.Hijack
      { isFlusher := false, isHijacker := false, flushCount := 0 }).err ≠
      none :=
  c7_flush_noop_hijack_error
    { isFlusher := false, isHijacker := false, flushCount := 0 } rfl rfl

/-- Setting a header and reading the same key back yields the set value. -/
theorem headerGet_headerSet (hs : Headers) (k v : String) :
    headerGet (headerSet hs k v) k = v := by
  simp [headerGet, headerSet, List.find?]

/-- C9: the three body-encoding operations are mutually exclusive with
last-writer-wins semantics — after any non-empty sequence of body-encoding
calls on a builder, the body bytes and the Content-Type header equal those
the last call alone would have produced on the same builder. -/
theorem c9_body_encoding_last_writer_wins (r : ReqBuilder) (ops : List BodyOp)
    (op : BodyOp) :
    (applyBodyOps r (ops ++ [op])).body = (applyBodyOp r op).body ∧
    headerGet (applyBodyOps r (ops ++ [op])).headers "Content-Type" =
      headerGet (applyBodyOp r op).headers "Content-Type" := by
  have h : applyBodyOps r (ops ++ [op]) =
      applyBodyOp (applyBodyOps r ops) op := by
    unfold applyBodyOps
    rw [List.foldl_concat]
  rw [h]
  exact ⟨rfl, by simp [applyBodyOp, headerGet_headerSet]⟩

/-- C10: the closure returned by `fp.Reduce` captures the accumulator
statefully: its first invocation returns the left fold from the initial
accumulator, and a second invocation folds from the first result instead of
the initial accumulator — concretely, calling the closure of
`Reduce Nat.add 0` twice on the slice `[1]` yields 1, then 2. -/
theorem c10_reduce_captures_accumulator (T R : Type) (callback : R → T → R)
    (acc : R) (xs ys : List T) :
    ((Reduce callback acc).call xs).1 = xs.foldl callback acc ∧
    (((Reduce callback acc).call xs).2.call ys).1 =
      ys.foldl callback (xs.foldl callback acc) ∧
    ((Reduce Nat.add 0).call [1]).1 = 1 ∧
    (((Reduce Nat.add 0).call [1]).2.call [1]).1 = 2 :=
  ⟨rfl, rfl, by decide, by decide⟩

/-- C8: the response-body logging phase never alters the response visible to
the client — on every execution path (logging disabled or type not
allow-listed, sink not readable, read failure, JSON/XML parse failure,
success) the committed status, the response headers and the written bytes are
exactly those the handler left behind; the phase only flushes and emits log
events. -/
theorem c8_response_logging_preserves_response (opts : LoggerOptions)
    (jsonValid xmlValid : String → Bool) (w : RSink) :
    (respLogPhase opts jsonValid xmlValid w).1.status = w.status ∧
    (respLogPhase opts jsonValid xmlValid w).1.headers = w.headers ∧
    (respLogPhase opts jsonValid xmlValid w).1.written = w.written := by
  refine ⟨?_, ?_, ?_⟩ <;>
    · unfold respLogPhase RSink.flush
      dsimp only
      repeat' split
      all_goals rfl

end IotaSdk
